import Mathlib

/-!
Shallow embedding of the `loggerext` HTTP-logging middleware
(`github.com/xgfone/go-apiserver-middleware-logger-ext`, file `logger.go`),
together with theorems settling the specification claims.

Bytes are modelled as `Nat`; byte buffers as `List Nat`; the dynamic
configuration (gconf group "log") as an explicit `Config` record polled on
each decision; the request context entries as `Option` fields of `Request`.
-/

namespace LoggerExt

/-- The dynamic configuration values read by the middleware
(gconf group "log" in `logger.go`). -/
structure Config where
  logQuery : Bool
  logReqBody : Bool
  logRespBody : Bool
  logReqHeaders : Bool
  logRespHeaders : Bool
  logBodyMaxLen : Int
  logBodyTypes : List String
deriving DecidableEq, Repr

/-- `http.Header.Get`: the first value stored under the key, or "" when absent
(canonicalization of header keys is not modelled; keys are compared as given). -/
def headerGet (h : List (String × String)) (k : String) : String :=
  match h.find? (fun kv => kv.1 == k) with
  | some kv => kv.2
  | none => ""

/-- `strings.TrimSpace` restricted to the ASCII whitespace relevant here
(`Char.isWhitespace` covers space, tab, CR, LF). -/
def trimSpace (s : String) : String :=
  String.mk (((s.data.dropWhile Char.isWhitespace).reverse.dropWhile Char.isWhitespace).reverse)

/-- `getContentType` (logger.go:146-152), applied to the raw header value:
if the value holds a ';', cut at the first ';' and trim the retained part;
otherwise return the value unchanged. -/
def getContentType (mime : String) : String :=
  if mime.data.contains ';' then
    trimSpace (String.mk (mime.data.takeWhile (fun c => !(c == ';'))))
  else mime

/-- `shouldlogbody` (logger.go:127-137): false when a positive maximum length
is exceeded, else whether the content type is listed in `log.bodytypes`
(exact membership, `slices.Contains`). -/
def shouldlogbody (cfg : Config) (ct : String) (datalen : Nat) : Bool :=
  if 0 < cfg.logBodyMaxLen ∧ cfg.logBodyMaxLen < (datalen : Int) then false
  else cfg.logBodyTypes.contains ct

/-- The spec's `withinSizeLimit(length, maxLen)` (spec §4.2), stated from the
spec's words for comparison with `shouldlogbody`: true iff `maxLen <= 0`
(unlimited) or `length <= maxLen`. -/
def withinSizeLimit (len : Nat) (maxLen : Int) : Bool :=
  decide (maxLen ≤ 0) || decide ((len : Int) ≤ maxLen)

/-- Modelled from the spec: the wildcard content-type allow check `containsct`.
Its implementation is not under src/ (only its test `TestContainsCT` is), so it
is modelled from spec §4.2: true if the MIME type exactly equals an allow-list
entry, or an entry of shape `t/*` matches the type part, or `*/s` matches the
subtype part. -/
def isAllowed (mime : String) (allow : List String) : Bool :=
  let tpart := mime.data.takeWhile (fun c => !(c == '/'))
  let spart := (mime.data.dropWhile (fun c => !(c == '/'))).drop 1
  allow.any fun e =>
    e == mime ||
    (['/', '*'].isSuffixOf e.data && e.data.dropLast.dropLast == tpart) ||
    (['*', '/'].isPrefixOf e.data && e.data.drop 2 == spart)

/-- One registered path exclusion: the normalized path (trailing '/' stripped,
except the root kept as "/") and whether it was registered with a trailing '/'
(subtree-matching) or bare (exact-matching). -/
structure IgnoreEntry where
  path : String
  subtree : Bool
deriving DecidableEq, Repr

/-- Modelled from the spec: `AppendIgnorePath` (its implementation is not under
src/, only its test `TestAppendIgnorePath`): normalizes the registered path by
stripping a trailing '/' (except the root) and appends it, remembering whether
it was registered with a trailing slash. -/
def appendIgnorePath (l : List IgnoreEntry) (p : String) : List IgnoreEntry :=
  if p == "/" then l ++ [⟨"/", true⟩]
  else if ['/'].isSuffixOf p.data then l ++ [⟨String.mk p.data.dropLast, true⟩]
  else l ++ [⟨p, false⟩]

/-- Modelled from the spec: the path-exclusion predicate used by `Enabled`
(spec §3, §4.5). A request path is excluded when it equals "/", or it exactly
equals a registered entry, or the entry was registered with a trailing slash
and the path falls under it at a segment boundary. -/
def isExcluded (l : List IgnoreEntry) (p : String) : Bool :=
  p == "/" || l.any fun e =>
    p == e.path || (e.subtree && (e.path.data ++ ['/']).isPrefixOf p.data)

/-- The readable request-body stream: the chunks that read calls deliver
before the stream ends, and the error (if any) the next read then reports
(`none` means clean EOF). -/
structure ByteStream where
  chunks : List (List Nat)
  failAfter : Option String
deriving DecidableEq, Repr

/-- Everything a reader draining the stream observes: the concatenation of
its chunks.  `io.CopyBuffer` in `wrapRequestBody` reads exactly this. -/
def readAll (s : ByteStream) : List Nat :=
  s.chunks.flatten

/-- The `reqbody` context value (logger.go:207-211): captured bytes and the
normalized content type (the pooled-buffer handle is the bytes themselves). -/
structure ReqBody where
  data : List Nat
  ct : String
deriving DecidableEq, Repr

/-- Log levels of the events emitted through slog. -/
inductive LogLevel where
  | error
  | warn
deriving DecidableEq, Repr

/-- A diagnostic record emitted via slog by `wrapRequestBody` on a body-read
failure: the level, the message and the attached request metadata. -/
structure LogEvent where
  level : LogLevel
  msg : String
  raddr : String
  method : String
  path : String
  err : String
deriving DecidableEq, Repr

/-- The incoming request: metadata, headers, body stream, and the two
context entries this middleware reads (`reqbodykey`, `logrespkey`). -/
structure Request where
  remoteAddr : String
  method : String
  requestURI : String
  urlPath : String
  rawQuery : String
  headers : List (String × String)
  body : ByteStream
  reqbodyCtx : Option ReqBody
  logrespCtx : Option Bool
deriving DecidableEq, Repr

/-- `wrapRequestBody` (logger.go:178-199).  When request-body logging is on
and the normalized content type is in `log.bodytypes`, it drains the body into
a pooled buffer (a read error is logged — not propagated — and the bytes read
so far are kept), stores the capture in the context, and replaces the body by
a replayable view over the captured bytes.  Otherwise the request is returned
untouched.  The response writer passes through unchanged in either case.
Returns the (possibly) rewritten request and the emitted log event, if any. -/
def wrapRequestBody (cfg : Config) (r : Request) : Request × Option LogEvent :=
  if !cfg.logReqBody then (r, none)
  else
    let ct := getContentType (headerGet r.headers "Content-Type")
    if cfg.logBodyTypes.contains ct then
      let data := readAll r.body
      let ev : Option LogEvent :=
        match r.body.failAfter with
        | some e => some { level := LogLevel.error, msg := "fail to read the request body",
                           raddr := r.remoteAddr, method := r.method,
                           path := r.requestURI, err := e }
        | none => none
      ({ r with body := { chunks := [data], failAfter := none },
                reqbodyCtx := some { data := data, ct := ct } }, ev)
    else (r, none)

/-- The response-writer view: the bytes the real (underlying) writer has
accepted, the response headers, and — when the writer has been wrapped by
`newResponseWriter` — the mirror buffer (`none` = not wrapped, so
`getResponseWriter` finds nothing). -/
structure RespState where
  underlying : List Nat
  respHeaders : List (String × String)
  mirror : Option (List Nat)
deriving DecidableEq, Repr

/-- `responseWriter.Write` / `responseWriter.WriteString` (logger.go:257-269),
both of which delegate first and then mirror only the accepted bytes: the
underlying writer accepts the first `n` bytes of `p` (its return value), and
when `n > 0` and the writer is wrapped, `p[:n]` is appended to the mirror
buffer.  For `WriteString`, `p` is the byte content of the string. -/
def writeResp (w : RespState) (p : List Nat) (n : Nat) : RespState :=
  let w1 : RespState := { w with underlying := w.underlying ++ p.take n }
  match w1.mirror with
  | some buf => if 0 < n then { w1 with mirror := some (buf ++ p.take n) } else w1
  | none => w1

/-- A sequence of write calls against the (wrapped) response writer: each call
carries the bytes passed in and the count the underlying writer accepts. -/
def runWrites (w : RespState) (calls : List (List Nat × Nat)) : RespState :=
  calls.foldl (fun a c => writeResp a c.1 c.2) w

/-- The bytes the underlying writer accepts over a sequence of calls:
the concatenation of the accepted prefix of each call. -/
def acceptedOf (calls : List (List Nat × Nat)) : List Nat :=
  (calls.map fun c => c.1.take c.2).flatten

/-- `wrapResponseBody` (logger.go:215-229): skip when response-body logging is
off, or when the request context carries the suppression flag (`logrespkey`
set to false by `DisableLogRespBody`); otherwise wrap the writer with a fresh
(empty, pooled) mirror buffer.  The `respbodykey` context entry written here
is never read back in logger.go and is not modelled. -/
def wrapResponseBody (cfg : Config) (w : RespState) (r : Request) : RespState × Request :=
  if !cfg.logRespBody then (w, r)
  else
    match r.logrespCtx with
    | some b => if !b then (w, r)
               else ({ w with mirror := some [] }, r)
    | none => ({ w with mirror := some [] }, r)

/-- The values attached to the emitted slog attributes. -/
inductive AttrVal where
  | s (v : String)
  | n (v : Nat)
  | hdrs (v : List (String × String))
  | json (v : List Nat)
  | txt (v : List Nat)
deriving DecidableEq, Repr

/-- An emitted key/value attribute. -/
abbrev Attr := String × AttrVal

/-- `getbodyattr` (logger.go:139-144): body bytes are emitted as raw JSON when
the content type ends in "json", else as plain text. -/
def getbodyattr (data : List Nat) (key ct : String) : Attr :=
  if ("json".data).isSuffixOf ct.data then (key, AttrVal.json data)
  else (key, AttrVal.txt data)

/-- `Collect` (logger.go:98-125): emits, in order, the query, the request and
response headers (each under its flag), then — when a request-body capture is
in the context — the captured length always and the content when
`shouldlogbody` holds, then — when the writer is wrapped — the mirror length
always and the mirror content when `shouldlogbody` holds for the response
content type. -/
def Collect (cfg : Config) (r : Request) (w : RespState) : List Attr :=
  (if cfg.logQuery then [("query", AttrVal.s r.rawQuery)] else [])
  ++ (if cfg.logReqHeaders then [("reqheaders", AttrVal.hdrs r.headers)] else [])
  ++ (if cfg.logRespHeaders then [("respheaders", AttrVal.hdrs w.respHeaders)] else [])
  ++ (match r.reqbodyCtx with
      | some rb =>
          ("reqbodylen", AttrVal.n rb.data.length)
          :: (if shouldlogbody cfg rb.ct rb.data.length
              then [getbodyattr rb.data "reqbody" rb.ct] else [])
      | none => [])
  ++ (match w.mirror with
      | some buf =>
          ("respbodylen", AttrVal.n buf.length)
          :: (if shouldlogbody cfg (getContentType (headerGet w.respHeaders "Content-Type")) buf.length
              then [getbodyattr buf "respbody" (getContentType (headerGet w.respHeaders "Content-Type"))] else [])
      | none => [])

/-- `bytes.Buffer.Reset`: drops the buffer's whole content (length becomes 0;
the retained capacity is not modelled). -/
def bufferReset (_b : List Nat) : List Nat := []

/-- `putbuffer` (logger.go:62), as called by `Release`: reset the buffer and
return it to the pool (the pool modelled as a list of buffer contents). -/
def putbuffer (pool : List (List Nat)) (b : List Nat) : List (List Nat) :=
  bufferReset b :: pool

/-- `getbuffer` (logger.go:61): take a pooled buffer, or construct a fresh
empty one (capacity hint 512, not modelled) on a pool miss. -/
def getbuffer (pool : List (List Nat)) : List Nat × List (List Nat) :=
  match pool with
  | [] => ([], [])
  | b :: rest => (b, rest)

/-- Sample headers: a JSON request. -/
def sampleHeaders : List (String × String) := [("Content-Type", "application/json")]

/-- Sample request with a healthy two-chunk body. -/
def sampleReq : Request :=
  ⟨"192.0.2.1", "POST", "/items?q=1", "/items", "q=1", sampleHeaders,
   ⟨[[1, 2], [3]], none⟩, none, none⟩

/-- Sample request whose body read fails after two bytes. -/
def failReq : Request :=
  ⟨"192.0.2.1", "POST", "/items", "/items", "", sampleHeaders,
   ⟨[[1, 2]], some "unexpected EOF"⟩, none, none⟩

/-- Sample request carrying the response-body suppression flag. -/
def suppReq : Request :=
  ⟨"192.0.2.1", "GET", "/x", "/x", "", [], ⟨[], none⟩, none, some false⟩

/-- Configuration with request-body logging on. -/
def cfgReqOn : Config := ⟨false, true, false, false, false, 2048, ["application/json"]⟩

/-- Configuration with request-body logging off. -/
def cfgReqOff : Config := ⟨false, false, false, false, false, 2048, ["application/json"]⟩

/-- Configuration with response-body logging on. -/
def cfgRespOn : Config := ⟨false, false, true, false, false, 2048, ["application/json"]⟩

/-- A response writer that has not been wrapped (no mirror buffer). -/
def plainWriter : RespState := ⟨[], [("Content-Type", "application/json")], none⟩

/-- Configuration with request-body logging on and a 2-byte maximum. -/
def cfgSmallMax : Config := ⟨false, true, false, false, false, 2, ["application/json"]⟩

/-- Sample request whose 5-byte body exceeds the 2-byte maximum. -/
def longReq : Request :=
  ⟨"192.0.2.1", "POST", "/items", "/items", "", sampleHeaders,
   ⟨[[1, 2, 3, 4, 5]], none⟩, none, none⟩

lemma getbodyattr_fst (data : List Nat) (key ct : String) :
    (getbodyattr data key ct).1 = key := by
  unfold getbodyattr
  split <;> rfl

lemma mem_ite_singleton {α : Type} {a x : α} {c : Prop} [Decidable c]
    (h : a ∈ (if c then [x] else [])) : a = x := by
  by_cases hc : c
  · rw [if_pos hc] at h
    simpa using h
  · rw [if_neg hc] at h
    simp at h

/-- Shape of everything `Collect` can emit: the three header/query attributes,
the request-body pair (length always, content only under `shouldlogbody`), and
the response-body pair (only when the writer is wrapped). -/
lemma collect_mem_cases (cfg : Config) (r : Request) (w : RespState) (a : Attr)
    (ha : a ∈ Collect cfg r w) :
    a.1 = "query" ∨ a.1 = "reqheaders" ∨ a.1 = "respheaders"
    ∨ (∃ rb, r.reqbodyCtx = some rb
        ∧ (a = ("reqbodylen", AttrVal.n rb.data.length)
           ∨ (shouldlogbody cfg rb.ct rb.data.length = true ∧ a.1 = "reqbody")))
    ∨ (∃ buf, w.mirror = some buf
        ∧ (a = ("respbodylen", AttrVal.n buf.length) ∨ a.1 = "respbody")) := by
  unfold Collect at ha
  rcases List.mem_append.mp ha with h4 | h5
  · rcases List.mem_append.mp h4 with h3 | hD
    · rcases List.mem_append.mp h3 with h2 | hC
      · rcases List.mem_append.mp h2 with hA | hB
        · exact Or.inl (by rw [mem_ite_singleton hA])
        · exact Or.inr (Or.inl (by rw [mem_ite_singleton hB]))
      · exact Or.inr (Or.inr (Or.inl (by rw [mem_ite_singleton hC])))
    · cases hrb : r.reqbodyCtx with
      | none => rw [hrb] at hD; simp at hD
      | some rb =>
        rw [hrb] at hD
        rcases List.mem_cons.mp hD with rfl | hD2
        · exact Or.inr (Or.inr (Or.inr (Or.inl ⟨rb, rfl, Or.inl rfl⟩)))
        · by_cases hs : shouldlogbody cfg rb.ct rb.data.length = true
          · rw [if_pos hs] at hD2
            have hx : a = getbodyattr rb.data "reqbody" rb.ct := by simpa using hD2
            exact Or.inr (Or.inr (Or.inr (Or.inl
              ⟨rb, rfl, Or.inr ⟨hs, by rw [hx, getbodyattr_fst]⟩⟩)))
          · rw [if_neg hs] at hD2
            simp at hD2
  · cases hmw : w.mirror with
    | none => rw [hmw] at h5; simp at h5
    | some buf =>
      rw [hmw] at h5
      rcases List.mem_cons.mp h5 with rfl | h52
      · exact Or.inr (Or.inr (Or.inr (Or.inr ⟨buf, rfl, Or.inl rfl⟩)))
      · have hx := mem_ite_singleton h52
        exact Or.inr (Or.inr (Or.inr (Or.inr
          ⟨buf, rfl, Or.inr (by rw [hx, getbodyattr_fst])⟩)))

/-- One wrapped write: delegate, then mirror exactly the accepted prefix. -/
lemma writeResp_wrapped (u : List Nat) (hs : List (String × String)) (b : List Nat)
    (p : List Nat) (n : Nat) :
    writeResp ⟨u, hs, some b⟩ p n = ⟨u ++ p.take n, hs, some (b ++ p.take n)⟩ := by
  unfold writeResp
  cases n with
  | zero => simp
  | succ m => simp

/-- Running a sequence of wrapped writes appends the accepted bytes both to
the underlying writer and to the mirror buffer. -/
lemma runWrites_wrapped (calls : List (List Nat × Nat)) :
    ∀ (u : List Nat) (hs : List (String × String)) (b : List Nat),
    runWrites ⟨u, hs, some b⟩ calls
      = ⟨u ++ acceptedOf calls, hs, some (b ++ acceptedOf calls)⟩ := by
  induction calls with
  | nil =>
    intro u hs b
    simp [runWrites, acceptedOf]
  | cons c t ih =>
    intro u hs b
    have h1 : runWrites ⟨u, hs, some b⟩ (c :: t)
        = runWrites (writeResp ⟨u, hs, some b⟩ c.1 c.2) t := rfl
    rw [h1, writeResp_wrapped, ih]
    simp [acceptedOf, List.append_assoc]

/-- When every call is fully accepted, the accepted bytes are the whole
payloads concatenated. -/
lemma acceptedOf_full (calls : List (List Nat × Nat))
    (h : ∀ c ∈ calls, c.2 = c.1.length) :
    acceptedOf calls = (calls.map fun c => c.1).flatten := by
  induction calls with
  | nil => rfl
  | cons c t ih =>
    have hc := h c (List.mem_cons_self c t)
    have ht := ih (fun x hx => h x (List.mem_cons_of_mem c hx))
    simp only [acceptedOf, List.map_cons, List.flatten_cons] at ht ⊢
    rw [hc, List.take_length, ht]

/-- The first character surviving `dropWhile p` does not satisfy `p`. -/
lemma head_dropWhile_char (p : Char → Bool) (l : List Char) (c : Char)
    (h : (l.dropWhile p).head? = some c) : p c = false := by
  induction l with
  | nil => simp [List.dropWhile] at h
  | cons a t ih =>
    rw [List.dropWhile_cons] at h
    by_cases hp : p a = true
    · rw [if_pos hp] at h
      exact ih h
    · rw [if_neg hp] at h
      simp at h
      rw [← h]
      exact Bool.eq_false_iff.mpr hp

/-- `dropWhile` does not touch the last element as long as something is
left. -/
lemma getLast?_dropWhile_char (p : Char → Bool) (l : List Char)
    (h : l.dropWhile p ≠ []) : (l.dropWhile p).getLast? = l.getLast? := by
  induction l with
  | nil => simp [List.dropWhile] at h
  | cons a t ih =>
    rw [List.dropWhile_cons] at h ⊢
    by_cases hp : p a = true
    · rw [if_pos hp] at h ⊢
      cases t with
      | nil => simp [List.dropWhile] at h
      | cons b t2 =>
        rw [ih h, List.getLast?_cons_cons]
    · rw [if_neg hp]

/-- A trimmed string never starts with whitespace. -/
lemma trimSpace_head (s : String) (c : Char)
    (h : (trimSpace s).data.head? = some c) : c.isWhitespace = false := by
  unfold trimSpace at h
  rw [List.head?_reverse] at h
  have hne : (s.data.dropWhile Char.isWhitespace).reverse.dropWhile Char.isWhitespace ≠ [] := by
    intro he
    rw [he] at h
    simp at h
  rw [getLast?_dropWhile_char _ _ hne, List.getLast?_reverse] at h
  exact head_dropWhile_char _ _ _ h

/-- A trimmed string never ends with whitespace. -/
lemma trimSpace_last (s : String) (c : Char)
    (h : (trimSpace s).data.getLast? = some c) : c.isWhitespace = false := by
  unfold trimSpace at h
  rw [List.getLast?_reverse] at h
  exact head_dropWhile_char _ _ _ h

/-- C3: the content-type allow check accepts exact allow-list matches, the
`t/*` shape on the type part, and the `*/s` shape on the subtype part; in
particular `isAllowed "application/json" ["application/json"]`,
`isAllowed "text/plain" ["text/*"]` and `isAllowed "application/xml" ["*/xml"]`
hold, while `isAllowed "application/x-www-form-urlencoded"
["text/*", "application/json", "*/xml"]` does not. -/
theorem isAllowed_cases :
    isAllowed "application/json" ["application/json"] = true
    ∧ isAllowed "text/plain" ["text/*"] = true
    ∧ isAllowed "application/xml" ["*/xml"] = true
    ∧ isAllowed "application/x-www-form-urlencoded"
        ["text/*", "application/json", "*/xml"] = false := by
  decide

/-- C4: with `["", "/", "/path1", "/path2/"]` registered, the exclusion
predicate excludes "/", "/path1", "/path2" and "/path2/path1" but not
"/path1/path2": trailing-slash registrations match their subtree and their
bare path, bare registrations match only exact equality. -/
theorem isExcluded_cases :
    isExcluded (appendIgnorePath (appendIgnorePath (appendIgnorePath
        (appendIgnorePath [] "") "/") "/path1") "/path2/") "/" = true
    ∧ isExcluded (appendIgnorePath (appendIgnorePath (appendIgnorePath
        (appendIgnorePath [] "") "/") "/path1") "/path2/") "/path1" = true
    ∧ isExcluded (appendIgnorePath (appendIgnorePath (appendIgnorePath
        (appendIgnorePath [] "") "/") "/path1") "/path2/") "/path1/path2" = false
    ∧ isExcluded (appendIgnorePath (appendIgnorePath (appendIgnorePath
        (appendIgnorePath [] "") "/") "/path1") "/path2/") "/path2" = true
    ∧ isExcluded (appendIgnorePath (appendIgnorePath (appendIgnorePath
        (appendIgnorePath [] "") "/") "/path1") "/path2/") "/path2/path1" = true := by
  decide

/-- C5: `shouldlogbody` holds exactly when the spec's size check
(`maxLen <= 0` or `length <= maxLen`) and the allow-list membership both
hold; a body longer than a positive maximum is never emitted. -/
theorem shouldlogbody_gate (cfg : Config) (ct : String) (n : Nat) :
    shouldlogbody cfg ct n
      = (withinSizeLimit n cfg.logBodyMaxLen && cfg.logBodyTypes.contains ct)
    ∧ (0 < cfg.logBodyMaxLen → cfg.logBodyMaxLen < (n : Int) →
        shouldlogbody cfg ct n = false) := by
  constructor
  · unfold shouldlogbody withinSizeLimit
    by_cases h : 0 < cfg.logBodyMaxLen ∧ cfg.logBodyMaxLen < (n : Int)
    · rw [if_pos h]
      have h1 : ¬ cfg.logBodyMaxLen ≤ 0 := by omega
      have h2 : ¬ (n : Int) ≤ cfg.logBodyMaxLen := by omega
      simp [h1, h2]
    · rw [if_neg h]
      have h1 : cfg.logBodyMaxLen ≤ 0 ∨ (n : Int) ≤ cfg.logBodyMaxLen := by omega
      rcases h1 with h1 | h1 <;> simp [h1]
  · intro ha hb
    unfold shouldlogbody
    rw [if_pos ⟨ha, hb⟩]

/-- C5 witness: with maximum length 2 and a 5-byte body of an allowed type,
the gate factors as stated and rejects the body. -/
theorem shouldlogbody_gate_w :
    shouldlogbody ⟨true, true, true, true, true, 2, ["a"]⟩ "a" 5
      = (withinSizeLimit 5 2 && (["a"] : List String).contains "a")
    ∧ shouldlogbody ⟨true, true, true, true, true, 2, ["a"]⟩ "a" 5 = false :=
  ⟨(shouldlogbody_gate ⟨true, true, true, true, true, 2, ["a"]⟩ "a" 5).1,
   (shouldlogbody_gate ⟨true, true, true, true, true, 2, ["a"]⟩ "a" 5).2
     (by decide) (by decide)⟩

/-- C9: a released buffer has length zero, and when every pooled buffer is
empty, the pool stays all-empty across a release and the next acquisition
yields an empty buffer. -/
theorem putbuffer_resets (pool : List (List Nat)) (b : List Nat) :
    (bufferReset b).length = 0
    ∧ ((∀ q ∈ pool, q.length = 0) →
        (∀ q ∈ putbuffer pool b, q.length = 0)
        ∧ (getbuffer (putbuffer pool b)).1.length = 0) := by
  refine ⟨rfl, fun h => ⟨?_, rfl⟩⟩
  intro q hq
  rcases List.mem_cons.mp hq with rfl | hq2
  · rfl
  · exact h q hq2

/-- C9 witness: releasing the buffer [1, 2, 3] into the pool containing one
empty buffer keeps the pool all-empty and the next acquisition empty. -/
theorem putbuffer_resets_w :
    (bufferReset [1, 2, 3]).length = 0
    ∧ (∀ q ∈ putbuffer [[]] [1, 2, 3], q.length = 0)
    ∧ (getbuffer (putbuffer [[]] [1, 2, 3])).1.length = 0 :=
  ⟨(putbuffer_resets [[]] [1, 2, 3]).1,
   ((putbuffer_resets [[]] [1, 2, 3]).2 (by decide)).1,
   ((putbuffer_resets [[]] [1, 2, 3]).2 (by decide)).2⟩

/-- C7 counterexample: on the raw header value " text/html " — which has no
';' — `getContentType` returns the value verbatim, ending in whitespace, so
the returned token does not always carry "no leading or trailing whitespace,
whether or not a ';' is present". -/
theorem getContentType_untrimmed_cex :
    getContentType " text/html " = " text/html "
    ∧ (getContentType " text/html ").data.getLast? = some ' '
    ∧ (' ').isWhitespace = true := by
  decide

/-- C7 (amended): when the raw value holds a ';', `getContentType` cuts at the
first ';' and trims the retained token, which then carries no leading or
trailing whitespace; when no ';' is present, the raw value is returned
unchanged (and may retain whitespace). -/
theorem getContentType_normalize (raw : String) :
    (raw.data.contains ';' = true →
        getContentType raw
          = trimSpace (String.mk (raw.data.takeWhile (fun c => !(c == ';'))))
        ∧ (∀ c, (getContentType raw).data.head? = some c → c.isWhitespace = false)
        ∧ (∀ c, (getContentType raw).data.getLast? = some c → c.isWhitespace = false))
    ∧ (raw.data.contains ';' = false → getContentType raw = raw) := by
  constructor
  · intro h
    have he : getContentType raw
        = trimSpace (String.mk (raw.data.takeWhile (fun c => !(c == ';')))) := by
      unfold getContentType
      rw [if_pos h]
    refine ⟨he, ?_, ?_⟩
    · intro c hc
      rw [he] at hc
      exact trimSpace_head _ _ hc
    · intro c hc
      rw [he] at hc
      exact trimSpace_last _ _ hc
  · intro h
    unfold getContentType
    rw [if_neg (by rw [h]; exact Bool.false_ne_true)]

/-- C7 witness: a value with parameters is cut and trimmed; a bare value is
returned unchanged. -/
theorem getContentType_normalize_w :
    getContentType " text/html ; charset=utf-8"
      = trimSpace (String.mk ((" text/html ; charset=utf-8" : String).data.takeWhile
          (fun c => !(c == ';'))))
    ∧ getContentType "text/plain" = "text/plain" :=
  ⟨((getContentType_normalize " text/html ; charset=utf-8").1 (by decide)).1,
   (getContentType_normalize "text/plain").2 (by decide)⟩

/-- C1: with request-body logging on and the content type in the allow-list,
a downstream handler draining the wrapped body reads exactly the bytes of the
original stream; with logging off or the type not accepted, the
request — body included — is returned untouched and no event is emitted. -/
theorem wrapRequestBody_transparent (cfg : Config) (r : Request) :
    (cfg.logReqBody = true →
        cfg.logBodyTypes.contains (getContentType (headerGet r.headers "Content-Type")) = true →
        readAll (wrapRequestBody cfg r).1.body = readAll r.body)
    ∧ ((cfg.logReqBody = false
        ∨ cfg.logBodyTypes.contains (getContentType (headerGet r.headers "Content-Type")) = false) →
        wrapRequestBody cfg r = (r, none)) := by
  constructor
  · intro h1 h2
    have h2m : getContentType (headerGet r.headers "Content-Type") ∈ cfg.logBodyTypes := by
      simpa using h2
    simp [wrapRequestBody, h1, h2m, readAll]
  · intro h
    rcases h with h | h
    · simp [wrapRequestBody, h]
    · have hm : getContentType (headerGet r.headers "Content-Type") ∉ cfg.logBodyTypes := by
        simpa using h
      by_cases hb : cfg.logReqBody = true <;> simp [wrapRequestBody, hb, hm]

/-- C1 witness: the sample JSON request reads back its own bytes after
wrapping, and is untouched when request-body logging is off. -/
theorem wrapRequestBody_transparent_w :
    readAll (wrapRequestBody cfgReqOn sampleReq).1.body = readAll sampleReq.body
    ∧ wrapRequestBody cfgReqOff sampleReq = (sampleReq, none) :=
  ⟨(wrapRequestBody_transparent cfgReqOn sampleReq).1 (by decide) (by decide),
   (wrapRequestBody_transparent cfgReqOff sampleReq).2 (Or.inl (by decide))⟩

/-- C8 counterexample: for the sample failing request, the event emitted by
`wrapRequestBody` (slog.Error in the source) carries the error level, not the
warning level, so the read failure is not "logged as a warning". -/
theorem wrapRequestBody_errorLevel_cex :
    ((wrapRequestBody cfgReqOn failReq).2).map LogEvent.level = some LogLevel.error
    ∧ LogLevel.error ≠ LogLevel.warn := by
  decide

/-- C8 (amended): when the body read fails during capture, the failure is
logged as an error-level message with the request metadata (remote address,
method, request URI) attached, the capture keeps the partial bytes read before
the failure, the body is replaced by a clean replayable view over those bytes,
and no error is propagated (the wrap returns normally). -/
theorem wrapRequestBody_readFailure (cfg : Config) (r : Request) (e : String) :
    cfg.logReqBody = true →
    cfg.logBodyTypes.contains (getContentType (headerGet r.headers "Content-Type")) = true →
    r.body.failAfter = some e →
      (wrapRequestBody cfg r).2
        = some ⟨LogLevel.error, "fail to read the request body",
                r.remoteAddr, r.method, r.requestURI, e⟩
      ∧ (wrapRequestBody cfg r).1.reqbodyCtx
        = some ⟨readAll r.body, getContentType (headerGet r.headers "Content-Type")⟩
      ∧ (wrapRequestBody cfg r).1.body = ⟨[readAll r.body], none⟩ := by
  intro h1 h2 h3
  have h2m : getContentType (headerGet r.headers "Content-Type") ∈ cfg.logBodyTypes := by
    simpa using h2
  simp [wrapRequestBody, h1, h2m, h3]

/-- C8 witness: the sample failing request yields the error-level event with
its metadata, the partial capture [1, 2], and a clean replay body. -/
theorem wrapRequestBody_readFailure_w :
    (wrapRequestBody cfgReqOn failReq).2
      = some ⟨LogLevel.error, "fail to read the request body",
              "192.0.2.1", "POST", "/items", "unexpected EOF"⟩
    ∧ (wrapRequestBody cfgReqOn failReq).1.reqbodyCtx
      = some ⟨[1, 2], "application/json"⟩
    ∧ (wrapRequestBody cfgReqOn failReq).1.body = ⟨[[1, 2]], none⟩ := by
  have h := wrapRequestBody_readFailure cfgReqOn failReq "unexpected EOF"
    (by decide) (by decide) (by decide)
  exact ⟨h.1, h.2.1, h.2.2⟩

/-- C2: across any sequence of write calls on the wrapped response writer,
the underlying writer receives exactly the accepted bytes and the mirror
buffer holds exactly their concatenation; when every call is fully accepted,
writing N bytes in total delivers exactly N bytes to the underlying writer
and leaves exactly N bytes in the mirror buffer. -/
theorem responseWriter_mirror (calls : List (List Nat × Nat)) (u : List Nat)
    (hs : List (String × String)) (b : List Nat) :
    (runWrites ⟨u, hs, some b⟩ calls).underlying = u ++ acceptedOf calls
    ∧ (runWrites ⟨u, hs, some b⟩ calls).mirror = some (b ++ acceptedOf calls)
    ∧ ((∀ c ∈ calls, c.2 = c.1.length) →
        (runWrites ⟨u, hs, some b⟩ calls).underlying.length
          = u.length + (calls.map fun c => c.1.length).sum
        ∧ (runWrites ⟨u, hs, some b⟩ calls).mirror.map List.length
          = some (b.length + (calls.map fun c => c.1.length).sum)) := by
  rw [runWrites_wrapped]
  refine ⟨rfl, rfl, fun h => ?_⟩
  rw [acceptedOf_full calls h]
  constructor <;> simp [List.length_append, Function.comp_def]

/-- C2 witness: two fully accepted writes of 3 and 2 bytes leave 5 bytes with
the underlying writer and 5 bytes in the mirror buffer. -/
theorem responseWriter_mirror_w :
    (runWrites ⟨[], [], some []⟩ [([1, 2, 3], 3), ([4, 5], 2)]).underlying
      = [] ++ acceptedOf [([1, 2, 3], 3), ([4, 5], 2)]
    ∧ (runWrites ⟨[], [], some []⟩ [([1, 2, 3], 3), ([4, 5], 2)]).mirror.map List.length
      = some (([] : List Nat).length
          + ([([1, 2, 3], 3), ([4, 5], 2)].map fun c => c.1.length).sum) :=
  ⟨(responseWriter_mirror [([1, 2, 3], 3), ([4, 5], 2)] [] [] []).1,
   ((responseWriter_mirror [([1, 2, 3], 3), ([4, 5], 2)] [] [] []).2.2 (by decide)).2⟩

/-- C6: with the suppression flag set in the request context before wrapping,
`wrapResponseBody` leaves the writer and request untouched (no mirror buffer
is attached), `Collect` emits no response-body attribute, and a write through
the unwrapped writer reaches the underlying writer unchanged with nothing
mirrored. -/
theorem respBodySuppression (cfg : Config) (w : RespState) (r : Request)
    (hsup : r.logrespCtx = some false) :
    wrapResponseBody cfg w r = (w, r)
    ∧ (w.mirror = none →
        (∀ a ∈ Collect cfg r w, a.1 ≠ "respbody" ∧ a.1 ≠ "respbodylen")
        ∧ (∀ p n, writeResp w p n = ⟨w.underlying ++ p.take n, w.respHeaders, none⟩)) := by
  constructor
  · by_cases hb : cfg.logRespBody = true <;> simp [wrapResponseBody, hsup, hb]
  · intro hm
    constructor
    · intro a ha
      rcases collect_mem_cases cfg r w a ha with h | h | h | h | h
      · rw [h]; exact ⟨by decide, by decide⟩
      · rw [h]; exact ⟨by decide, by decide⟩
      · rw [h]; exact ⟨by decide, by decide⟩
      · rcases h with ⟨rb, _, h⟩
        rcases h with h | h
        · have hk : a.1 = "reqbodylen" := by rw [h]
          rw [hk]; exact ⟨by decide, by decide⟩
        · rw [h.2]; exact ⟨by decide, by decide⟩
      · rcases h with ⟨buf, hbuf, _⟩
        rw [hm] at hbuf
        exact absurd hbuf (by simp)
    · intro p n
      rcases w with ⟨wu, whs, wm⟩
      simp at hm
      subst hm
      unfold writeResp
      cases n <;> rfl

/-- C6 witness: the suppressed sample request leaves the plain writer and the
request untouched, and a 2-byte write passes straight through. -/
theorem respBodySuppression_w :
    wrapResponseBody cfgRespOn plainWriter suppReq = (plainWriter, suppReq)
    ∧ writeResp plainWriter [7, 8] 2
      = ⟨plainWriter.underlying ++ [7, 8].take 2, plainWriter.respHeaders, none⟩ :=
  ⟨(respBodySuppression cfgRespOn plainWriter suppReq rfl).1,
   ((respBodySuppression cfgRespOn plainWriter suppReq rfl).2 rfl).2 [7, 8] 2⟩

/-- C10: request-body capture never consults the configured maximum length:
under the enable and allow-list gates, the whole body is drained into the
capture regardless of `log.bodymaxlen` (the wrap is invariant under changing
that limit), `Collect` always emits the request-body-length attribute for a
captured body, and when the captured length exceeds a positive limit no
body-content attribute is emitted. -/
theorem wrapRequestBody_ignoresMaxLen (cfg : Config) (r : Request) (w : RespState) :
    cfg.logReqBody = true →
    cfg.logBodyTypes.contains (getContentType (headerGet r.headers "Content-Type")) = true →
      (wrapRequestBody cfg r).1.reqbodyCtx
        = some ⟨readAll r.body, getContentType (headerGet r.headers "Content-Type")⟩
      ∧ (∀ m : Int, wrapRequestBody { cfg with logBodyMaxLen := m } r = wrapRequestBody cfg r)
      ∧ ("reqbodylen", AttrVal.n (readAll r.body).length)
          ∈ Collect cfg (wrapRequestBody cfg r).1 w
      ∧ (0 < cfg.logBodyMaxLen → cfg.logBodyMaxLen < ((readAll r.body).length : Int) →
          ∀ a ∈ Collect cfg (wrapRequestBody cfg r).1 w, a.1 ≠ "reqbody") := by
  intro h1 h2
  have h2m : getContentType (headerGet r.headers "Content-Type") ∈ cfg.logBodyTypes := by
    simpa using h2
  have hctx : (wrapRequestBody cfg r).1.reqbodyCtx
      = some ⟨readAll r.body, getContentType (headerGet r.headers "Content-Type")⟩ := by
    simp [wrapRequestBody, h1, h2m]
  refine ⟨hctx, fun m => rfl, ?_, ?_⟩
  · simp only [Collect]
    apply List.mem_append_left
    apply List.mem_append_right
    rw [hctx]
    exact List.mem_cons_self _ _
  · intro hm1 hm2 a ha
    have hsf : shouldlogbody cfg (getContentType (headerGet r.headers "Content-Type"))
        (readAll r.body).length = false := by
      unfold shouldlogbody
      rw [if_pos ⟨hm1, hm2⟩]
    rcases collect_mem_cases cfg (wrapRequestBody cfg r).1 w a ha with h | h | h | h | h
    · rw [h]; decide
    · rw [h]; decide
    · rw [h]; decide
    · rcases h with ⟨rb, hrb, h⟩
      rw [hctx] at hrb
      injection hrb with hrb2
      rcases h with h | h
      · have hk : a.1 = "reqbodylen" := by rw [h]
        rw [hk]; decide
      · exfalso
        rw [← hrb2] at h
        simp at h
        rw [h.1] at hsf
        simp at hsf
    · rcases h with ⟨buf, _, h⟩
      rcases h with h | h
      · have hk : a.1 = "respbodylen" := by rw [h]
        rw [hk]; decide
      · rw [h]; decide

/-- C10 witness: a 5-byte JSON body with a 2-byte maximum is still fully
captured, the capture is unchanged under a different maximum, and the length
attribute is emitted. -/
theorem wrapRequestBody_ignoresMaxLen_w :
    (wrapRequestBody cfgSmallMax longReq).1.reqbodyCtx
      = some ⟨[1, 2, 3, 4, 5], "application/json"⟩
    ∧ wrapRequestBody ⟨false, true, false, false, false, 99, ["application/json"]⟩ longReq
      = wrapRequestBody cfgSmallMax longReq
    ∧ ("reqbodylen", AttrVal.n 5)
        ∈ Collect cfgSmallMax (wrapRequestBody cfgSmallMax longReq).1 plainWriter := by
  have h := wrapRequestBody_ignoresMaxLen cfgSmallMax longReq plainWriter (by decide) (by decide)
  exact ⟨h.1, h.2.1 99, h.2.2.1⟩

end LoggerExt
